import Mathlib

/-!
A shallow embedding of the type representation, subtyping algorithm,
unification, and conformance-conflict rules of the Cadence static
semantics ("sema") package, translated from `runtime/sema/type.go` and
the interface-conformance checker, together with proofs of properties
of that code.

The embedded fragment of the closed type-variant set covers: the
singleton simple and numeric types, `OptionalType`, `VariableSizedType`,
`ConstantSizedType`, `DictionaryType`, `ReferenceType`, `FunctionType`,
`CapabilityType`, `GenericType`, `EntitlementType`, and a nominal
`CompositeType` carrying its kind, its location-qualified `ID`, its
attachment base type, and the identities of its implicit
type-requirement conformances (members, nested types and explicit
conformances play no role in the embedded relations).  Interface and
restricted/intersection types are outside the fragment.

Go pointer identity of singletons is modelled by the `SimpleKind`
enumeration; pointer identity of `TypeParameter` allocations is
modelled by an explicit `ref` field.  Fallible Go code (nil interface
dereference) is modelled with `Option`.
-/

namespace CadenceSema

/--
Kinds of the parameterless singleton types.  In Go each of these is a
process-wide singleton (`NeverType`, `AnyType`, ..., the `NumericType`
and `FixedPointNumericType` instances, `AddressType`), so comparison of
values of this enumeration models Go pointer comparison against the
singletons, and `Equal`'s ID fallback coincides with it.
-/
inductive SimpleKind where
  | never | any | anyStruct | anyResource | anyStructAttachment | anyResourceAttachment
  | number | signedNumber | integer | signedInteger | fixedPoint | signedFixedPoint
  | int | int8 | int16 | int32 | int64 | int128 | int256
  | uint | uint8 | uint16 | uint32 | uint64 | uint128 | uint256
  | word8 | word16 | word32 | word64
  | fix64 | ufix64
  | bool | address | invalid
  deriving DecidableEq

/--
Modelled from the spec: `Access` values (the authorization of a
reference) are polymorphic over "Unauthorized, an explicit set of
required entitlements (conjunctive or disjunctive — "all of" vs
"any of")" (§4.3).  The entitlement-map access variant and the
defining file (`access.go`) are not part of the source subset.
-/
inductive Access where
  | unauthorized
  | conjunction (entitlements : List String)
  | disjunction (entitlements : List String)
  deriving DecidableEq

/--
Modelled from the spec: `access.go` is not in the source subset.  The
spec states that a reference's "authorization must be a superset to be
a valid subtype-reference" (§3) and that the supertype's authorization
must `PermitsAccess` the subtype's (§4.4).  Unauthorized demands
nothing and so permits any authorization; a conjunctive set is
permitted when every demanded entitlement is guaranteed; a disjunctive
set when the other side guarantees one of its members.  No claim in
this file depends on the body of this function, only on the position
of its call in `checkSubTypeWithoutEquality`.
-/
def Access.PermitsAccess : Access → Access → Bool
  | .unauthorized, _ => true
  | .conjunction es, .conjunction fs => es.all (fun e => fs.contains e)
  | .conjunction es, .disjunction fs => !fs.isEmpty && fs.all (fun f => es.contains f)
  | .conjunction _, .unauthorized => false
  | .disjunction es, .conjunction fs => fs.any (fun f => es.contains f)
  | .disjunction es, .disjunction fs => fs.all (fun f => es.contains f)
  | .disjunction _, .unauthorized => false

/--
Modelled from the spec: structural equality of authorizations, used by
`ReferenceType.Equal` (`t.Authorization.Equal(otherReference.Authorization)`).
-/
def Access.accessEqual (a b : Access) : Bool := a == b

/-- `common.CompositeKind`: the kind of a composite declaration. -/
inductive CompositeKind where
  | structK | resourceK | contractK | enumK | eventK | attachmentK
  deriving DecidableEq

/-- `FunctionPurity`: a function is either impure (the zero value) or `view`. -/
inductive FunctionPurity where
  | impure | view
  deriving DecidableEq

mutual

/--
The embedded fragment of the closed `Type` variant set of
`runtime/sema/type.go`.  Field names follow the Go structs.
`function`'s `returnTypeAnnot` models `ReturnTypeAnnotation`, whose
inner `Type` may be nil in Go (modelled as `none`).
-/
inductive SType where
  | simple (kind : SimpleKind)
  | optional (innerType : SType)
  | variableSized (elementType : SType)
  | constantSized (elementType : SType) (size : Int)
  | dictionary (keyType valueType : SType)
  | reference (authorization : Access) (referencedType : SType)
  | function (purity : FunctionPurity) (typeParameters : List TypeParameter)
      (parameters : List Parameter) (returnTypeAnnot : Option TypeAnnot)
      (isConstructor : Bool) (requiredArgumentCount : Option Int)
  | capability (borrowType : Option SType)
  | generic (typeParameter : TypeParameter)
  | entitlementE (identifier : String)
  | composite (kind : CompositeKind) (typeID : String) (baseType : Option SType)
      (implicitTypeRequirementConformances : List (CompositeKind × String))

/--
`TypeParameter` from the source: name, optional type bound, optionality
flag.  The extra `ref` field models the identity of the Go allocation
(`*TypeParameter` pointer): `GenericType.Equal` compares pointers, and
the unification map is keyed by pointer.
-/
inductive TypeParameter where
  | mk (ref : Nat) (name : String) (typeBound : Option SType) (optionalFlag : Bool)

/-- `Parameter` from the source: label, identifier, and type annotation. -/
inductive Parameter where
  | mk (label identifier : String) (typeAnnot : TypeAnnot)

/--
`TypeAnnotation` from the source: a `Type` paired with the explicit
`IsResource` flag supplied by the syntax.
-/
inductive TypeAnnot where
  | mk (isResource : Bool) (ty : SType)

end

namespace TypeParameter

def ref : TypeParameter → Nat
  | .mk r _ _ _ => r

def name : TypeParameter → String
  | .mk _ n _ _ => n

def typeBound : TypeParameter → Option SType
  | .mk _ _ b _ => b

def optionalFlag : TypeParameter → Bool
  | .mk _ _ _ o => o

end TypeParameter

namespace Parameter

def label : Parameter → String
  | .mk l _ _ => l

def identifier : Parameter → String
  | .mk _ i _ => i

def typeAnnot : Parameter → TypeAnnot
  | .mk _ _ a => a

end Parameter

namespace TypeAnnot

def isResource : TypeAnnot → Bool
  | .mk r _ => r

def ty : TypeAnnot → SType
  | .mk _ t => t

end TypeAnnot

/--
Go's `subType == NeverType` test: pointer comparison against the
`NeverType` singleton.  Only the `never` simple kind is that singleton.
-/
def isNeverType : SType → Bool
  | .simple .never => true
  | _ => false

/-- Go's `subType != AnyType` test: pointer comparison against `AnyType`. -/
def isAnyType : SType → Bool
  | .simple .any => true
  | _ => false

/--
`isAttachmentType` from the source: a composite type of kind
attachment, or one of the `AnyResourceAttachment` /
`AnyStructAttachment` singletons.
-/
def isAttachmentType : SType → Bool
  | .composite k _ _ _ => k == .attachmentK
  | .simple .anyResourceAttachment => true
  | .simple .anyStructAttachment => true
  | _ => false

mutual

/--
`IsResourceType()` for the embedded fragment: an
optional/array/dictionary element position is resource-typed iff any
reachable element is; references, functions, capabilities, generics,
entitlements and the singleton simple/numeric types are not
resources; a composite is a resource iff its kind is `Resource` or it
is an attachment whose base type is a resource.
-/
def isResourceType : SType → Bool
  | .simple _ => false
  | .optional t => isResourceType t
  | .variableSized t => isResourceType t
  | .constantSized t _ => isResourceType t
  | .dictionary k v => isResourceType k || isResourceType v
  | .reference _ _ => false
  | .function _ _ _ _ _ _ => false
  | .capability _ => false
  | .generic _ => false
  | .entitlementE _ => false
  | .composite .resourceK _ _ _ => true
  | .composite .attachmentK _ (some base) _ =>
      -- attachments are always the same kind as their base type; the
      -- source guards against a self-referential base
      -- (`t.baseType != t`), which cannot arise in a tree model
      isResourceType base
  | .composite _ _ _ _ => false

end

mutual

/--
`IsInvalidType()` for the embedded fragment, following each variant's
method: the `InvalidType` singleton is invalid; containers are invalid
iff a component is; a function is invalid iff a non-nil type-parameter
bound, a parameter type, or the return type is.  (Go dereferences the
return annotation's type without a nil check; an absent return type is
modelled as not invalid.)
-/
def isInvalidType : SType → Bool
  | .simple k => k == .invalid
  | .optional t => isInvalidType t
  | .variableSized t => isInvalidType t
  | .constantSized t _ => isInvalidType t
  | .dictionary k v => isInvalidType k || isInvalidType v
  | .reference _ t => isInvalidType t
  | .function _ tps params ret _ _ =>
      anyBoundInvalid tps || anyParamInvalid params || retInvalid ret
  | .capability none => false
  | .capability (some t) => isInvalidType t
  | .generic _ => false
  | .entitlementE _ => false
  | .composite _ _ _ _ => false

/-- The type-parameter loop of `FunctionType.IsInvalidType` (skipping nil bounds). -/
def anyBoundInvalid : List TypeParameter → Bool
  | [] => false
  | .mk _ _ (some b) _ :: rest => isInvalidType b || anyBoundInvalid rest
  | .mk _ _ none _ :: rest => anyBoundInvalid rest

/-- The parameter loop of `FunctionType.IsInvalidType`. -/
def anyParamInvalid : List Parameter → Bool
  | [] => false
  | .mk _ _ (.mk _ t) :: rest => isInvalidType t || anyParamInvalid rest

/-- The final return-type check of `FunctionType.IsInvalidType` (see `isInvalidType`). -/
def retInvalid : Option TypeAnnot → Bool
  | some (.mk _ t) => isInvalidType t
  | none => false

end

mutual

/--
Structural `Equal`, translated per variant from the source:
singleton kinds by identity (with ID fallback, which coincides);
optionals/arrays/dictionaries/references componentwise;
`ConstantSizedType` carries its size into `Equal`; functions compare
purity, type parameters, parameter type annotations, constructor-ness
and return type but ignore parameter names; `GenericType.Equal`
compares `TypeParameter` pointers (the `ref` field); entitlements
compare IDs.  Go's `FunctionType.Equal` dereferences the return types
without nil checks; two absent return types are modelled as equal.
-/
def tEqual : SType → SType → Bool
  | .simple k, .simple k2 => k == k2
  | .optional t, .optional u => tEqual t u
  | .variableSized t, .variableSized u => tEqual t u
  | .constantSized t n, .constantSized u m => tEqual t u && n == m
  | .dictionary k v, .dictionary k2 v2 => tEqual k2 k && tEqual v2 v
  | .reference a t, .reference a2 t2 => Access.accessEqual a a2 && tEqual t t2
  | .function p tps params ret ctor _, .function p2 tps2 params2 ret2 ctor2 _ =>
      p == p2 && tpsEqual tps tps2 && paramsEqual params params2 &&
        ctor == ctor2 && retEqual ret ret2
  | .capability none, .capability none => true
  | .capability (some _), .capability none => false
  | .capability none, .capability (some _) => false
  | .capability (some x), .capability (some x2) => tEqual x2 x
  | .generic (.mk r _ _ _), .generic (.mk r2 _ _ _) => r == r2
  | .entitlementE i, .entitlementE j => i == j
  | .composite k id _ _, .composite k2 id2 _ _ => k2 == k && id2 == id
  | _, _ => false
termination_by a b => sizeOf a + sizeOf b
decreasing_by all_goals (simp_wf; omega)

/-- The type-parameter list comparison of `FunctionType.Equal`. -/
def tpsEqual : List TypeParameter → List TypeParameter → Bool
  | [], [] => true
  | tp :: rest, tp2 :: rest2 => tpEqual tp tp2 && tpsEqual rest rest2
  | _, _ => false
termination_by a b => sizeOf a + sizeOf b
decreasing_by all_goals (simp_wf; omega)

/--
`TypeParameter.Equal` from the source: name, bound (both nil, or both
non-nil and `Equal`), and optionality.  This is structural, unlike the
pointer comparison in `GenericType.Equal`.
-/
def tpEqual : TypeParameter → TypeParameter → Bool
  | .mk _ n none o, .mk _ n2 none o2 => n == n2 && o == o2
  | .mk _ n (some x) o, .mk _ n2 (some y) o2 => n == n2 && tEqual x y && o == o2
  | .mk _ _ none _, .mk _ _ (some _) _ => false
  | .mk _ _ (some _) _, .mk _ _ none _ => false
termination_by a b => sizeOf a + sizeOf b
decreasing_by all_goals (simp_wf; omega)

/-- The parameter list comparison of `FunctionType.Equal` (annotations only). -/
def paramsEqual : List Parameter → List Parameter → Bool
  | [], [] => true
  | .mk _ _ a :: rest, .mk _ _ a2 :: rest2 => taEqual a a2 && paramsEqual rest rest2
  | _, _ => false
termination_by a b => sizeOf a + sizeOf b
decreasing_by all_goals (simp_wf; omega)

/-- `TypeAnnotation.Equal`: resource flag and type. -/
def taEqual : TypeAnnot → TypeAnnot → Bool
  | .mk r t, .mk r2 t2 => r == r2 && tEqual t t2
termination_by a b => sizeOf a + sizeOf b
decreasing_by all_goals (simp_wf; omega)

/-- Return type comparison of `FunctionType.Equal` (see `tEqual`). -/
def retEqual : Option TypeAnnot → Option TypeAnnot → Bool
  | some (.mk _ t), some (.mk _ t2) => tEqual t t2
  | none, none => true
  | _, _ => false
termination_by a b => sizeOf a + sizeOf b
decreasing_by all_goals (simp_wf; omega)

end

mutual

/--
Termination measure for the subtyping recursion: a weighted size that
strictly shrinks along every recursive call of
`checkSubTypeWithoutEquality`, including the calls that step from the
`Number`/`Integer`/`FixedPoint` abstract supertypes down their
hand-written membership chains (those keep the subtype fixed, so the
singleton supertypes are ranked).  Not part of the embedded code.
-/
def tsize : SType → Nat
  | .simple .number => 4
  | .simple .signedNumber => 3
  | .simple .integer => 3
  | .simple .fixedPoint => 3
  | .simple .signedInteger => 2
  | .simple .signedFixedPoint => 2
  | .simple _ => 1
  | .optional t => 5 + tsize t
  | .variableSized t => 5 + tsize t
  | .constantSized t _ => 5 + tsize t
  | .dictionary k v => 5 + tsize k + tsize v
  | .reference _ t => 5 + tsize t
  | .function _ _ params ret _ _ => 5 + tsizeParams params + tsizeRet ret
  | .capability none => 5
  | .capability (some b) => 10 + tsize b
  | .generic _ => 1
  | .entitlementE _ => 1
  | .composite _ _ _ _ => 1

/-- Parameter-list part of the measure. -/
def tsizeParams : List Parameter → Nat
  | [] => 0
  | .mk _ _ (.mk _ t) :: rest => 5 + tsize t + tsizeParams rest

/-- Return-annotation part of the measure. -/
def tsizeRet : Option TypeAnnot → Nat
  | none => 0
  | some (.mk _ t) => 5 + tsize t

end


mutual

/--
`IsSubType` from the source, for non-nil types: reflexivity via the
structural-equality fast path, then `checkSubTypeWithoutEquality`.
(The defensive nil-subtype guard of the Go function lives in the
nilable wrapper `IsSubTypeNilable` below; no recursive call inside
the engine ever passes a nil type.)
-/
def IsSubType (subType superType : SType) : Bool :=
  if tEqual subType superType then true
  else checkSubTypeWithoutEquality subType superType
termination_by 2 * (tsize subType + tsize superType) + 1
decreasing_by all_goals simp_wf

/--
`checkSubTypeWithoutEquality` from the source, restricted to the
embedded fragment.  The structure follows the Go function: the `Never`
bottom-type test, the named-supertype switch (universal top types and
the abstract numeric supertypes), the per-variant typed switch, and
the trailing parameterized-type erasure fallback (`T<Us> <: V` if
`T <: V`), which in this fragment applies to `CapabilityType` (the
only `ParameterizedType`) and is inlined at each arm of the typed
switch that falls through.  Supertypes that are `SimpleType` values
with no `IsSuperTypeOf` function (`Never`, `Bool`, `Invalid`) yield
false directly; concrete numeric types and `Address` have no case in
the typed switch and fall to the erasure fallback.
-/
def checkSubTypeWithoutEquality (subType superType : SType) : Bool :=
  if isNeverType subType then true
  else
    match superType with
    | .simple .any => true
    | .simple .anyStruct =>
        if isResourceType subType then false
        else !(isAnyType subType)
    | .simple .anyResource => isResourceType subType
    | .simple .anyResourceAttachment => isResourceType subType && isAttachmentType subType
    | .simple .anyStructAttachment => !(isResourceType subType) && isAttachmentType subType
    | .simple .number =>
        (match subType with
         | .simple .number | .simple .signedNumber => true
         | s =>
             IsSubType s (.simple .integer) ||
               IsSubType s (.simple .fixedPoint))
    | .simple .signedNumber =>
        (match subType with
         | .simple .signedNumber => true
         | s =>
             IsSubType s (.simple .signedInteger) ||
               IsSubType s (.simple .signedFixedPoint))
    | .simple .integer =>
        (match subType with
         | .simple .integer | .simple .signedInteger
         | .simple .uint
         | .simple .uint8 | .simple .uint16 | .simple .uint32 | .simple .uint64
         | .simple .uint128 | .simple .uint256
         | .simple .word8 | .simple .word16 | .simple .word32 | .simple .word64 => true
         | s => IsSubType s (.simple .signedInteger))
    | .simple .signedInteger =>
        (match subType with
         | .simple .signedInteger
         | .simple .int
         | .simple .int8 | .simple .int16 | .simple .int32 | .simple .int64
         | .simple .int128 | .simple .int256 => true
         | _ => false)
    | .simple .fixedPoint =>
        (match subType with
         | .simple .fixedPoint | .simple .signedFixedPoint
         | .simple .ufix64 => true
         | s => IsSubType s (.simple .signedFixedPoint))
    | .simple .signedFixedPoint =>
        (match subType with
         | .simple .signedFixedPoint | .simple .fix64 => true
         | _ => false)
    | .optional u =>
        (match subType with
         | .optional t =>
             -- Optionals are covariant: T? <: U? if T <: U
             IsSubType t u
         | s =>
             -- T <: U? if T <: U
             IsSubType s u)
    | .dictionary k2 v2 =>
        (match subType with
         | .dictionary k v => IsSubType k k2 && IsSubType v v2
         | _ => false)
    | .variableSized u =>
        (match subType with
         | .variableSized t => IsSubType t u
         | _ => false)
    | .constantSized u m =>
        (match subType with
         | .constantSized t n =>
             if n != m then false
             else IsSubType t u
         | _ => false)
    | .reference auth2 u =>
        (match subType with
         | .reference auth t =>
             -- the authorization of the subtype reference must be usable in all
             -- situations where the supertype reference is usable
             Access.PermitsAccess auth2 auth &&
               -- references are covariant in their referenced type
               IsSubType t u
         | _ => false)
    | .function p2 _ params2 ret2 ctor2 _ =>
        (match subType with
         | .function p _ params ret ctor _ =>
             -- view functions are subtypes of impure functions
             if p != p2 && p != FunctionPurity.view then false
             else
               -- equal parameter arity, with parameters contravariant
               isSubTypeParamsContravariant params params2 &&
               -- covariant return type, both present or both absent
               (match ret, ret2 with
                | some (.mk _ rt), some (.mk _ rt2) => IsSubType rt rt2
                | some _, none => false
                | none, some _ => false
                | none, none => true) &&
               -- constructor-ness must match exactly
               ctor == ctor2
         | _ => false)
    | .capability (some b2) =>
        (match subType with
         | .capability (some b) =>
             -- ParameterizedType rule: T<Us> <: V<Ws> if T <: V and the
             -- single type arguments (the borrow types) are related covariantly
             IsSubType (.capability none) (.capability none) && IsSubType b b2
         | _ =>
             -- a sub capability without borrow type has a nil base type, and
             -- other subtypes are not parameterized: the erasure fallback fails
             false)
    | .capability none =>
        (match subType with
         | .capability (some _) =>
             -- super base type is nil, so the typed-switch case is skipped;
             -- the erasure fallback compares the sub base type to the super
             IsSubType (.capability none) (.capability none)
         | _ => false)
    | .simple .never => false
    | .simple .bool => false
    | .simple .invalid => false
    | .simple sk =>
        -- concrete numeric / fixed-point / address supertypes have no arm in
        -- the typed switch; only the erasure fallback remains
        (match subType with
         | .capability (some _) => IsSubType (.capability none) (.simple sk)
         | _ => false)
    | .generic tp =>
        (match subType with
         | .capability (some _) => IsSubType (.capability none) (.generic tp)
         | _ => false)
    | .entitlementE i =>
        (match subType with
         | .capability (some _) => IsSubType (.capability none) (.entitlementE i)
         | _ => false)
    | .composite k2 id2 b2 impl2 =>
        -- the type-equality case is already handled by the fast path; the
        -- remaining case is type-requirement conformance, and a fall-through
        -- reaches the erasure fallback
        (match subType with
         | .composite _ _ _ implicits =>
             if implicits.contains (k2, id2) then true
             else false
         | .capability (some _) =>
             IsSubType (.capability none) (.composite k2 id2 b2 impl2)
         | _ => false)
termination_by 2 * (tsize subType + tsize superType)
decreasing_by all_goals (simp_wf; simp only [tsize, tsizeParams, tsizeRet]; omega)

/--
The parameter loop of the function-type case of
`checkSubTypeWithoutEquality`: the length check and the contravariant
per-position check (`IsSubType(superParameter.Type, subParameter.Type)`)
fused into one list recursion.  First list: subtype parameters; second:
supertype parameters.
-/
def isSubTypeParamsContravariant : List Parameter → List Parameter → Bool
  | [], [] => true
  | .mk _ _ (.mk _ t) :: rest, .mk _ _ (.mk _ t2) :: rest2 =>
      IsSubType t2 t && isSubTypeParamsContravariant rest rest2
  | _, _ => false
termination_by xs ys => 2 * (tsizeParams xs + tsizeParams ys)
decreasing_by all_goals (simp_wf; simp only [tsize, tsizeParams, tsizeRet]; omega)

end

/--
`IsSameTypeKind` from the source: like `IsSubType`, but the `Never`
type never belongs to the same kind as any supertype.
-/
def IsSameTypeKind (subType superType : SType) : Bool :=
  if isNeverType subType then false
  else IsSubType subType superType

/--
`IsProperSubType` from the source, for non-nil subtypes: the subtype
relation excluding reflexivity (the equality fast path returns false).
-/
def IsProperSubType (subType superType : SType) : Bool :=
  if tEqual subType superType then false
  else checkSubTypeWithoutEquality subType superType

/--
The Go `IsSubType` entry point takes a possibly-nil subtype and begins
with the defensive guard: a nil left-hand type is never a subtype.
-/
def IsSubTypeNilable (subType : Option SType) (superType : SType) : Bool :=
  match subType with
  | none => false
  | some s => IsSubType s superType

/--
The Go `IsProperSubType` entry point has no nil guard: it immediately
calls `subType.Equal(superType)`, which dereferences a nil interface
receiver.  The non-returning call is modelled as `none`.
-/
def IsProperSubTypeNilable (subType : Option SType) (superType : SType) : Option Bool :=
  match subType with
  | none => none
  | some s => some (IsProperSubType s superType)

/--
`TypeAnnotationState` values used by the embedded fragment
(`TypeAnnotationStateValid`, `...MissingResourceAnnotation`,
`...InvalidResourceAnnotation`, `...DirectEntitlementTypeAnnotation`,
`...DirectAttachmentTypeAnnotation`).
-/
inductive TypeAnnotState where
  | valid | missingResourceAnnot | invalidResourceAnnot
  | directEntitlementTypeAnnot | directAttachmentTypeAnnot
  deriving DecidableEq

/-- `NewTypeAnnotation`: the public constructor derives the `IsResource`
flag from the type itself. -/
def NewTypeAnnot (ty : SType) : TypeAnnot := .mk (isResourceType ty) ty

mutual

/--
The per-variant `TypeAnnotationState()` methods of the embedded
fragment: singleton, generic and capability-without-borrow types are
valid; entitlement types report
`TypeAnnotationStateDirectEntitlementTypeAnnotation`; containers
propagate the first non-valid component state; a reference masks every
inner state except the direct-entitlement one; a function checks its
type-parameter bounds, then its parameter annotations, then its return
annotation.  (Go dereferences nil type-parameter bounds and a nil
return-annotation type without checks; these are modelled as valid.)
-/
def typeAnnotState : SType → TypeAnnotState
  | .simple _ => .valid
  | .optional t => typeAnnotState t
  | .variableSized t => typeAnnotState t
  | .constantSized t _ => typeAnnotState t
  | .dictionary k v =>
      (match typeAnnotState k with
       | .valid => typeAnnotState v
       | s => s)
  | .reference _ t =>
      if typeAnnotState t == .directEntitlementTypeAnnot then
        .directEntitlementTypeAnnot
      else .valid
  | .function _ tps params ret _ _ =>
      (match tpsAnnotState tps with
       | .valid =>
           (match paramsAnnotState params with
            | .valid =>
                (match ret with
                 | some a => annotState a
                 | none => .valid)
            | s => s)
       | s => s)
  | .capability none => .valid
  | .capability (some t) => typeAnnotState t
  | .generic _ => .valid
  | .entitlementE _ => .directEntitlementTypeAnnot
  | .composite .attachmentK _ _ _ => .directAttachmentTypeAnnot
  | .composite _ _ _ _ => .valid

/-- The type-parameter-bound loop of `FunctionType.TypeAnnotationState`. -/
def tpsAnnotState : List TypeParameter → TypeAnnotState
  | [] => .valid
  | .mk _ _ (some b) _ :: rest =>
      (match typeAnnotState b with
       | .valid => tpsAnnotState rest
       | s => s)
  | .mk _ _ none _ :: rest => tpsAnnotState rest

/-- The parameter loop of `FunctionType.TypeAnnotationState`. -/
def paramsAnnotState : List Parameter → TypeAnnotState
  | [] => .valid
  | .mk _ _ a :: rest =>
      (match annotState a with
       | .valid => paramsAnnotState rest
       | s => s)

/--
`TypeAnnotation.TypeAnnotationState()`: an annotation on an invalid
type is valid; a non-valid inner state is propagated; otherwise the
explicit `IsResource` flag must agree with `Type.IsResourceType()`,
and the disagreement is reported as the missing/invalid
resource-annotation state, never silently corrected.
-/
def annotState : TypeAnnot → TypeAnnotState
  | .mk isResource ty =>
      if isInvalidType ty then .valid
      else
        (match typeAnnotState ty with
         | .valid =>
             (match isResourceType ty, isResource with
              | true, false => .missingResourceAnnot
              | false, true => .invalidResourceAnnot
              | _, _ => .valid)
         | s => s)

end

/--
Errors reported through the injected `report` callback during
unification: `TypeParameterTypeMismatchError` (a repeated binding does
not match exactly) and `TypeMismatchError` (a type-parameter bound
violation from `checkTypeBound`).
-/
inductive UnifyError where
  | typeParameterTypeMismatch (ref : Nat) (expectedType actualType : SType)
  | typeMismatch (expectedType actualType : SType)

/--
The mutable context threaded through `Unify`: the shared
`typeParameters` ordered map (keyed by `*TypeParameter` pointer,
modelled by the `ref` field) and the errors accumulated by the
`report` callback.
-/
structure UnifyState where
  bindings : List (Nat × SType)
  errors : List UnifyError

/-- `TypeParameterTypeOrderedMap.Get`, keyed by pointer identity. -/
def lookupBinding : List (Nat × SType) → Nat → Option SType
  | [], _ => none
  | (r, t) :: rest, p => if r == p then some t else lookupBinding rest p

/--
`TypeParameter.checkTypeBound`: with no bound, or an invalid bound or
argument, there is nothing to check; otherwise the argument must be a
subtype of the bound, and a violation is a `TypeMismatchError`.
-/
def checkTypeBound (p : TypeParameter) (ty : SType) : Option UnifyError :=
  match p.typeBound with
  | none => none
  | some bound =>
      if isInvalidType bound || isInvalidType ty then none
      else if !(IsSubType ty bound) then some (.typeMismatch bound ty)
      else none

mutual

/--
`Unify(other, typeParameters, report, outerRange)` for the embedded
fragment, with the mutated map and the reported errors made explicit:
the result is the new state and the boolean return value.  Per the
source, the boolean reports only whether a generic type appeared in
the pair; failures surface solely as reported errors.  A `GenericType`
binds its unbound type parameter to the observed type (checking the
declared bound), or requires exact equality with the existing binding,
reporting `TypeParameterTypeMismatchError` otherwise — the binding is
left unchanged and the result is still true.  Structural variants
unify componentwise; every other variant returns false.  (Go threads a
nil `other` into the inner `Unify` when a capability with a borrow
type is unified against one without; the fragment models this
assertion-failure path as no unification.)
-/
def sUnify (t other : SType) (st : UnifyState) : UnifyState × Bool :=
  match t with
  | .simple _ => (st, false)
  | .optional inner =>
      (match other with
       | .optional otherInner => sUnify inner otherInner st
       | _ => (st, false))
  | .variableSized inner =>
      (match other with
       | .variableSized o => sUnify inner o st
       | _ => (st, false))
  | .constantSized inner n =>
      (match other with
       | .constantSized o m =>
           if n != m then (st, false)
           else sUnify inner o st
       | _ => (st, false))
  | .dictionary k v =>
      (match other with
       | .dictionary k2 v2 =>
           let r1 := sUnify k k2 st
           let r2 := sUnify v v2 r1.1
           (r2.1, r1.2 || r2.2)
       | _ => (st, false))
  | .reference _ inner =>
      (match other with
       | .reference _ o => sUnify inner o st
       | _ => (st, false))
  | .function _ tps params ret _ _ =>
      (match other with
       | .function _ tps2 params2 ret2 _ _ =>
           if !tps.isEmpty || !tps2.isEmpty then (st, false)
           else if params.length != params2.length then (st, false)
           else
             let r1 := unifyParams params params2 st
             (match ret, ret2 with
              | some (.mk _ rt), some (.mk _ rt2) =>
                  let r2 := sUnify rt rt2 r1.1
                  (r2.1, r1.2 || r2.2)
              | _, _ =>
                  -- Go dereferences the return-annotation types without nil
                  -- checks; absent return types contribute no unification
                  r1)
       | _ => (st, false))
  | .capability none => (st, false)
  | .capability (some b) =>
      (match other with
       | .capability (some b2) => sUnify b b2 st
       | _ => (st, false))
  | .generic p =>
      (match lookupBinding st.bindings p.ref with
       | some unifiedType =>
           -- already unified: check that this argument type matches exactly
           if !(tEqual other unifiedType) then
             ({ st with
                errors := st.errors ++
                  [.typeParameterTypeMismatch p.ref unifiedType other] },
              true)
           else (st, true)
       | none =>
           -- not yet unified: bind it, then check the declared type bound
           let st1 : UnifyState := { st with bindings := st.bindings ++ [(p.ref, other)] }
           (match checkTypeBound p other with
            | some e => ({ st1 with errors := st1.errors ++ [e] }, true)
            | none => (st1, true)))
  | .entitlementE _ => (st, false)
  | .composite _ _ _ _ => (st, false)

/-- The parameter loop of `FunctionType.Unify` (runs under the length guard). -/
def unifyParams : List Parameter → List Parameter → UnifyState → UnifyState × Bool
  | [], _, st => (st, false)
  | _ :: _, [], st => (st, false)
  | .mk _ _ (.mk _ t) :: rest, .mk _ _ (.mk _ t2) :: rest2, st =>
      let r1 := sUnify t t2 st
      let r2 := unifyParams rest rest2 r1.1
      (r2.1, r1.2 || r2.2)

end

mutual

/--
`Resolve(typeArguments)` for the embedded fragment: substitutes every
`GenericType` with its bound type argument, returning `none` (Go: nil,
"cannot resolve yet") when a required binding is absent.  Structural
variants resolve componentwise and propagate nil — except
`CapabilityType.Resolve`, which turns a failed borrow-type resolution
into a capability with a nil borrow type, and `FunctionType.Resolve`,
which rebuilds its annotations with `NewTypeAnnotation` and does not
carry over `TypeParameters` or `IsConstructor` (they are left at their
zero values).  Singleton and entitlement types resolve to themselves.
(Go dereferences a nil function return type; that path is modelled as
unresolved.)
-/
def sResolve (t : SType) (typeArguments : List (Nat × SType)) : Option SType :=
  match t with
  | .simple k => some (.simple k)
  | .optional inner =>
      (match sResolve inner typeArguments with
       | none => none
       | some newInner => some (.optional newInner))
  | .variableSized inner =>
      (match sResolve inner typeArguments with
       | none => none
       | some newInner => some (.variableSized newInner))
  | .constantSized inner n =>
      (match sResolve inner typeArguments with
       | none => none
       | some newInner => some (.constantSized newInner n))
  | .dictionary k v =>
      (match sResolve k typeArguments with
       | none => none
       | some newKey =>
           (match sResolve v typeArguments with
            | none => none
            | some newValue => some (.dictionary newKey newValue)))
  | .reference auth inner =>
      (match sResolve inner typeArguments with
       | none => none
       | some newInner => some (.reference auth newInner))
  | .function purity _ params ret _ reqCount =>
      (match resolveParams params typeArguments, resolveReturn ret typeArguments with
       | some newParams, some newRt =>
           some (.function purity [] newParams
             (some (NewTypeAnnot newRt)) false reqCount)
       | _, _ => none)
  | .capability none => some (.capability none)
  | .capability (some b) =>
      (match sResolve b typeArguments with
       | none => some (.capability none)
       | some nb => some (.capability (some nb)))
  | .generic p =>
      (match lookupBinding typeArguments p.ref with
       | none => none
       | some ty => some ty)
  | .entitlementE i => some (.entitlementE i)
  | .composite k id b impl => some (.composite k id b impl)
termination_by sizeOf t
decreasing_by all_goals (simp_wf; try omega)

/-- The return-type part of `FunctionType.Resolve`: Go dereferences the
return-annotation type without a nil check; an absent return type is
modelled as unresolved. -/
def resolveReturn : Option TypeAnnot → List (Nat × SType) → Option SType
  | some (.mk _ rt), args => sResolve rt args
  | none, _ => none
termination_by r _ => sizeOf r
decreasing_by all_goals (simp_wf; try omega)

/-- The parameter loop of `FunctionType.Resolve`: labels and identifiers
are preserved, annotations are rebuilt with `NewTypeAnnotation`. -/
def resolveParams : List Parameter → List (Nat × SType) → Option (List Parameter)
  | [], _ => some []
  | .mk label ident (.mk _ ty) :: rest, args =>
      (match sResolve ty args with
       | none => none
       | some newTy =>
           (match resolveParams rest args with
            | none => none
            | some newRest => some (.mk label ident (NewTypeAnnot newTy) :: newRest)))
termination_by xs _ => sizeOf xs
decreasing_by all_goals (simp_wf; try omega)

end

/--
The fields of a `Member` record consulted by
`checkDuplicateInterfaceMember`: whether the declaration carries a
default implementation (`HasImplementation`), whether it carries
pre/post conditions (`HasConditions`), and its signature, abstracted
to an identity (see `memberSatisfied`).
-/
structure Member where
  hasImplementation : Bool
  hasConditions : Bool
  signature : Nat
  deriving DecidableEq

/--
Modelled from the spec: `Checker.memberSatisfied` (defined outside the
source subset) decides whether two same-named members' signatures are
identical — "`Member` equality for conformance purposes is *signature*
equality (type, purity, argument labels), not identity" (§3).
Signatures are abstracted to an identity.
-/
def memberSatisfied (interfaceMember conflictingMember : Member) : Bool :=
  interfaceMember.signature == conflictingMember.signature

/--
`Checker.checkDuplicateInterfaceMember` (without the error-range
plumbing): returns whether the pair is reported as an
`InterfaceMemberConflictError` (`isDuplicate`).  `interfaceMember` is
the member of the current declaration (or of an earlier sibling when
checking siblings); `conflictingMember` is the member it clashes with;
`isConflictingMemberInherited` is true when the conflicting member
comes from an inherited conformance rather than a sibling.
-/
def checkDuplicateInterfaceMember (interfaceMember conflictingMember : Member)
    (isConflictingMemberInherited : Bool) : Bool :=
  -- Check if the two members have identical signatures.  If not, report.
  if !(memberSatisfied interfaceMember conflictingMember) then true
  -- At most one of the two may carry a default implementation.
  else if interfaceMember.hasImplementation && conflictingMember.hasImplementation then true
  -- An inherited default implementation may be overridden by a
  -- declaration with conditions, but not by an empty declaration.
  else if isConflictingMemberInherited && conflictingMember.hasImplementation &&
      !interfaceMember.hasConditions then true
  else false

mutual

/--
For the round-trip claim: `concreteValueType t` states that t is a
concrete argument type — it contains no `GenericType` occurrence and
no type parameters (so `Unify` traverses it fully), and no
attachment-kind composite (attachment types cannot appear directly as
value types; `TypeAnnotationState` rejects them, and the nominal
`Equal` on composites does not inspect an attachment's base type).
-/
def concreteValueType : SType → Bool
  | .simple _ => true
  | .optional t => concreteValueType t
  | .variableSized t => concreteValueType t
  | .constantSized t _ => concreteValueType t
  | .dictionary k v => concreteValueType k && concreteValueType v
  | .reference _ t => concreteValueType t
  | .function _ tps params ret _ _ =>
      tps.isEmpty && concreteParams params &&
        (match ret with
         | some (.mk _ t) => concreteValueType t
         | none => true)
  | .capability none => true
  | .capability (some b) => concreteValueType b
  | .generic _ => false
  | .entitlementE _ => true
  | .composite k _ b _ =>
      !(k == .attachmentK) &&
        (match b with
         | some base => concreteValueType base
         | none => true)

/-- Parameter-list part of `concreteValueType`. -/
def concreteParams : List Parameter → Bool
  | [] => true
  | .mk _ _ (.mk _ t) :: rest => concreteValueType t && concreteParams rest

end

mutual

/--
For the round-trip claim: `shapeB s t` states that s has the identical
structural shape as t with `GenericType` occurrences at (some) leaves —
every non-generic position of s matches t's constructor and its
non-type attributes (constant size, authorization, purity, labels
aside), concrete leaves are `Equal`, function types carry no type
parameters (`Unify` does not traverse function types that have them),
both function types are non-constructors (`Resolve` does not rebuild
the `IsConstructor` flag), and the t-side parameter annotations carry
the canonical resource flag (`Resolve` rebuilds annotations with
`NewTypeAnnotation`).
-/
def shapeB : SType → SType → Bool
  | .generic _, t => concreteValueType t
  | .simple k, t => tEqual (.simple k) t
  | .entitlementE i, t => tEqual (.entitlementE i) t
  | .composite k id b impl, t => tEqual (.composite k id b impl) t
  | .optional s, .optional t => shapeB s t
  | .variableSized s, .variableSized t => shapeB s t
  | .constantSized s n, .constantSized t m => n == m && shapeB s t
  | .dictionary ks vs, .dictionary kt vt => shapeB ks kt && shapeB vs vt
  | .reference a s, .reference a2 t => a == a2 && shapeB s t
  | .function p tps params ret ctor _, .function p2 tps2 params2 ret2 ctor2 _ =>
      p == p2 && tps.isEmpty && tps2.isEmpty &&
        ctor == false && ctor2 == false &&
        shapeParams params params2 &&
        (match ret, ret2 with
         | some (.mk _ rs), some (.mk _ rt) => shapeB rs rt
         | _, _ => false)
  | .capability none, .capability none => true
  | .capability (some bs), .capability (some bt) => shapeB bs bt
  | _, _ => false

/-- Parameter-list part of `shapeB`: positionwise shapes, with the
t-side resource flags canonical. -/
def shapeParams : List Parameter → List Parameter → Bool
  | [], [] => true
  | .mk _ _ (.mk _ ts) :: rest, .mk _ _ (.mk flag2 tt) :: rest2 =>
      shapeB ts tt && flag2 == isResourceType tt && shapeParams rest rest2
  | _, _ => false

end

/-! ## Helper lemmas -/

mutual

/-- Structural `Equal` is reflexive on the embedded fragment. -/
theorem tEqual_refl : ∀ t : SType, tEqual t t = true
  | .simple _ => by simp [tEqual]
  | .optional t => by simp only [tEqual]; exact tEqual_refl t
  | .variableSized t => by simp only [tEqual]; exact tEqual_refl t
  | .constantSized t _ => by simp [tEqual, tEqual_refl t]
  | .dictionary k v => by simp [tEqual, tEqual_refl k, tEqual_refl v]
  | .reference a t => by simp [tEqual, Access.accessEqual, tEqual_refl t]
  | .function p tps params ret ctor req => by
      simp [tEqual, tpsEqual_refl tps, paramsEqual_refl params, retEqual_refl ret]
  | .capability none => by simp [tEqual]
  | .capability (some b) => by simp only [tEqual]; exact tEqual_refl b
  | .generic (.mk r _ _ _) => by simp [tEqual]
  | .entitlementE _ => by simp [tEqual]
  | .composite _ _ _ _ => by simp [tEqual]

theorem tpsEqual_refl : ∀ xs : List TypeParameter, tpsEqual xs xs = true
  | [] => by simp [tpsEqual]
  | tp :: rest => by simp [tpsEqual, tpEqual_refl tp, tpsEqual_refl rest]

theorem tpEqual_refl : ∀ tp : TypeParameter, tpEqual tp tp = true
  | .mk _ _ none _ => by simp [tpEqual]
  | .mk _ _ (some b) _ => by simp [tpEqual, tEqual_refl b]

theorem paramsEqual_refl : ∀ xs : List Parameter, paramsEqual xs xs = true
  | [] => by simp [paramsEqual]
  | .mk _ _ a :: rest => by simp [paramsEqual, taEqual_refl a, paramsEqual_refl rest]

theorem taEqual_refl : ∀ a : TypeAnnot, taEqual a a = true
  | .mk _ t => by simp [taEqual, tEqual_refl t]

theorem retEqual_refl : ∀ r : Option TypeAnnot, retEqual r r = true
  | none => by simp [retEqual]
  | some (.mk _ t) => by simp [retEqual, tEqual_refl t]

end

/-- `==` from a lawful `BEq` instance is symmetric. -/
theorem beqComm {α : Type _} [BEq α] [LawfulBEq α] (a b : α) : (a == b) = (b == a) := by
  by_cases h : a = b
  · subst h; rfl
  · rw [beq_eq_false_iff_ne.mpr h, beq_eq_false_iff_ne.mpr (Ne.symm h)]

mutual

/-- Structural `Equal` is symmetric on the embedded fragment. -/
theorem tEqual_symm (a b : SType) : tEqual a b = tEqual b a := by
  cases a <;> cases b <;> (try simp only [tEqual]) <;>
    first
    | exact beqComm _ _
    | skip
  next i1 i2 =>
    exact tEqual_symm i1 i2
  next e1 e2 =>
    exact tEqual_symm e1 e2
  next e1 s1 e2 s2 =>
    rw [tEqual_symm e1 e2, beqComm s1 s2]
  next k1 v1 k2 v2 =>
    rw [tEqual_symm k1 k2, tEqual_symm v1 v2]
  next a1 t1 a2 t2 =>
    simp only [Access.accessEqual]
    rw [beqComm a1 a2, tEqual_symm t1 t2]
  next p1 tps1 ps1 r1 c1 q1 p2 tps2 ps2 r2 c2 q2 =>
    rw [beqComm p1 p2, tpsEqual_symm tps1 tps2, paramsEqual_symm ps1 ps2,
      beqComm c1 c2, retEqual_symm r1 r2]
  next b1 b2 =>
    cases b1 <;> cases b2 <;> simp only [tEqual]
    next x y => exact (tEqual_symm x y).symm
  next tp1 tp2 =>
    cases tp1
    cases tp2
    simp only [tEqual]
    exact beqComm _ _
  next k1 id1 b1 c1 k2 id2 b2 c2 =>
    rw [beqComm k2 k1, beqComm id2 id1]
termination_by sizeOf a

theorem tpsEqual_symm : ∀ xs ys : List TypeParameter, tpsEqual xs ys = tpsEqual ys xs
  | [], [] => by simp only [tpsEqual]
  | [], _ :: _ => by simp only [tpsEqual]
  | _ :: _, [] => by simp only [tpsEqual]
  | tp :: rest, tp2 :: rest2 => by
      simp only [tpsEqual]
      rw [tpEqual_symm tp tp2, tpsEqual_symm rest rest2]
termination_by xs _ => sizeOf xs

theorem tpEqual_symm : ∀ tp tp2 : TypeParameter, tpEqual tp tp2 = tpEqual tp2 tp
  | .mk _ n none o, .mk _ n2 none o2 => by
      simp only [tpEqual]; rw [beqComm n n2, beqComm o o2]
  | .mk _ n (some x) o, .mk _ n2 (some y) o2 => by
      simp only [tpEqual]; rw [beqComm n n2, tEqual_symm x y, beqComm o o2]
  | .mk _ _ none _, .mk _ _ (some _) _ => by simp only [tpEqual]
  | .mk _ _ (some _) _, .mk _ _ none _ => by simp only [tpEqual]
termination_by tp _ => sizeOf tp

theorem paramsEqual_symm : ∀ xs ys : List Parameter, paramsEqual xs ys = paramsEqual ys xs
  | [], [] => by simp only [paramsEqual]
  | [], _ :: _ => by simp only [paramsEqual]
  | _ :: _, [] => by simp only [paramsEqual]
  | .mk _ _ a :: rest, .mk _ _ a2 :: rest2 => by
      simp only [paramsEqual]
      rw [taEqual_symm a a2, paramsEqual_symm rest rest2]
termination_by xs _ => sizeOf xs

theorem taEqual_symm : ∀ a b : TypeAnnot, taEqual a b = taEqual b a
  | .mk r t, .mk r2 t2 => by
      simp only [taEqual]; rw [beqComm r r2, tEqual_symm t t2]
termination_by a _ => sizeOf a

theorem retEqual_symm : ∀ r r2 : Option TypeAnnot, retEqual r r2 = retEqual r2 r
  | none, none => by simp only [retEqual]
  | none, some _ => by simp only [retEqual]
  | some _, none => by simp only [retEqual]
  | some (.mk _ t), some (.mk _ t2) => by
      simp only [retEqual]; exact tEqual_symm t t2
termination_by r _ => sizeOf r

end

/-- `PermitsAccess` is reflexive. -/
theorem permitsAccess_refl (a : Access) : a.PermitsAccess a = true := by
  cases a <;> simp [Access.PermitsAccess, List.all_eq_true]

/-! ## Claim theorems -/

set_option maxHeartbeats 2000000

/--
The purity guard of the function-subtype case, in the claim's phrasing:
it passes iff the purities are equal or the subtype is `view` and the
supertype impure.
-/
theorem purity_guard_iff (p p2 : FunctionPurity) :
    ((p != p2 && p != FunctionPurity.view) = false) ↔
      (p = p2 ∨ (p = .view ∧ p2 = .impure)) := by
  cases p <;> cases p2 <;> decide

/--
The fused length/contravariance parameter check coincides with the
claim's per-position phrasing.
-/
theorem isSubTypeParams_iff : ∀ xs ys : List Parameter,
    isSubTypeParamsContravariant xs ys = true ↔
      (xs.length = ys.length ∧
       ∀ i : Nat, ∀ hi : i < xs.length, ∀ hi2 : i < ys.length,
         IsSubType ((ys.get ⟨i, hi2⟩).typeAnnot.ty)
           ((xs.get ⟨i, hi⟩).typeAnnot.ty) = true)
  | [], [] => by simp [isSubTypeParamsContravariant]
  | [], _ :: _ => by simp [isSubTypeParamsContravariant]
  | _ :: _, [] => by simp [isSubTypeParamsContravariant]
  | .mk l ident (.mk r ty) :: xs, .mk l2 ident2 (.mk r2 ty2) :: ys => by
      rw [isSubTypeParamsContravariant, Bool.and_eq_true]
      constructor
      · rintro ⟨h1, h2⟩
        obtain ⟨hlen, hall⟩ := (isSubTypeParams_iff xs ys).mp h2
        refine ⟨by simp [hlen], ?_⟩
        intro i hi hi2
        cases i with
        | zero => simpa [Parameter.typeAnnot, TypeAnnot.ty] using h1
        | succ j =>
            simpa using hall j (by simpa using hi) (by simpa using hi2)
      · rintro ⟨hlen, hall⟩
        constructor
        · simpa [Parameter.typeAnnot, TypeAnnot.ty] using
            hall 0 (by simp) (by simp)
        · apply (isSubTypeParams_iff xs ys).mpr
          refine ⟨by simpa using hlen, ?_⟩
          intro j hj hj2
          simpa using hall (j + 1) (by simpa using hj) (by simpa using hj2)

/--
C1: for all reference types, `IsSubType(&T with a_sub, &U with a_super)`
holds iff `a_super.PermitsAccess(a_sub)` and `IsSubType(T, U)`: the
check runs in the direction that prevents privilege widening.
-/
theorem reference_subtyping_authorization (aSub aSuper : Access) (t u : SType) :
    IsSubType (.reference aSub t) (.reference aSuper u) =
      (Access.PermitsAccess aSuper aSub && IsSubType t u) := by
  rw [IsSubType]
  by_cases h : tEqual (.reference aSub t) (.reference aSuper u) = true
  · rw [if_pos h]
    have h2 := h
    simp only [tEqual, Access.accessEqual, Bool.and_eq_true, beq_iff_eq] at h2
    obtain ⟨rfl, htu⟩ := h2
    rw [permitsAccess_refl, IsSubType, if_pos htu]
    rfl
  · rw [if_neg h]
    simp [checkSubTypeWithoutEquality, isNeverType]

/--
C2: for function types that are not structurally `Equal`, `IsSubType`
holds iff: the subtype's purity equals the supertype's or the subtype
is `view` and the supertype impure; the parameter lists have equal
length; every parameter position is contravariant
(`IsSubType(super.param[i], sub.param[i])`); the return types are
related covariantly, both present or both absent; and constructor-ness
matches exactly.
-/
theorem function_subtyping_rule
    (p p2 : FunctionPurity) (tps tps2 : List TypeParameter)
    (params params2 : List Parameter) (ret ret2 : Option TypeAnnot)
    (ctor ctor2 : Bool) (req req2 : Option Int)
    (h : tEqual (.function p tps params ret ctor req)
      (.function p2 tps2 params2 ret2 ctor2 req2) = false) :
    IsSubType (.function p tps params ret ctor req)
      (.function p2 tps2 params2 ret2 ctor2 req2) = true ↔
      ((p = p2 ∨ (p = .view ∧ p2 = .impure)) ∧
       params.length = params2.length ∧
       (∀ i : Nat, ∀ hi : i < params.length, ∀ hi2 : i < params2.length,
         IsSubType ((params2.get ⟨i, hi2⟩).typeAnnot.ty)
           ((params.get ⟨i, hi⟩).typeAnnot.ty) = true) ∧
       (match ret, ret2 with
        | some a, some a2 => IsSubType a.ty a2.ty = true
        | none, none => True
        | _, _ => False) ∧
       ctor = ctor2) := by
  rw [IsSubType, if_neg (by rw [h]; exact Bool.false_ne_true),
    checkSubTypeWithoutEquality.eq_def]
  simp only [isNeverType, Bool.false_eq_true, if_false]
  by_cases hp : (p != p2 && p != FunctionPurity.view) = true
  · rw [if_pos hp]
    simp only [Bool.false_eq_true, false_iff]
    rintro ⟨hpur, -⟩
    rw [(purity_guard_iff p p2).mpr hpur] at hp
    exact Bool.false_ne_true hp
  · rw [if_neg hp]
    have hpu : p = p2 ∨ (p = .view ∧ p2 = .impure) :=
      (purity_guard_iff p p2).mp (by simpa using hp)
    simp only [Bool.and_eq_true, beq_iff_eq]
    rw [isSubTypeParams_iff]
    rcases ret with - | ⟨ra, rt⟩ <;> rcases ret2 with - | ⟨ra2, rt2⟩
    · simp only [TypeAnnot.ty]
      constructor
      · rintro ⟨⟨⟨hlen, hall⟩, -⟩, hctor⟩
        exact ⟨hpu, hlen, hall, trivial, hctor⟩
      · rintro ⟨-, hlen, hall, -, hctor⟩
        exact ⟨⟨⟨hlen, hall⟩, trivial⟩, hctor⟩
    · simp
    · simp
    · simp only [TypeAnnot.ty]
      constructor
      · rintro ⟨⟨⟨hlen, hall⟩, hret⟩, hctor⟩
        exact ⟨hpu, hlen, hall, hret, hctor⟩
      · rintro ⟨-, hlen, hall, hret, hctor⟩
        exact ⟨⟨⟨hlen, hall⟩, hret⟩, hctor⟩

/-- Witness for the claim-C2 theorem: a pair of non-`Equal` function
types related exactly by contravariant parameters and covariant
return types. -/
theorem function_subtyping_witness :
    tEqual
      (.function .impure [] [.mk "" "x" (.mk false (.simple .integer))]
        (some (.mk false (.simple .int))) false none)
      (.function .impure [] [.mk "" "x" (.mk false (.simple .int))]
        (some (.mk false (.simple .integer))) false none) = false ∧
    (IsSubType
      (.function .impure [] [.mk "" "x" (.mk false (.simple .integer))]
        (some (.mk false (.simple .int))) false none)
      (.function .impure [] [.mk "" "x" (.mk false (.simple .int))]
        (some (.mk false (.simple .integer))) false none) = true ↔
      ((FunctionPurity.impure = .impure ∨
         (FunctionPurity.impure = .view ∧ FunctionPurity.impure = .impure)) ∧
       [Parameter.mk "" "x" (.mk false (.simple .integer))].length =
         [Parameter.mk "" "x" (.mk false (.simple .int))].length ∧
       (∀ i : Nat,
         ∀ hi : i < [Parameter.mk "" "x" (.mk false (.simple .integer))].length,
         ∀ hi2 : i < [Parameter.mk "" "x" (.mk false (.simple .int))].length,
         IsSubType
           (([Parameter.mk "" "x" (.mk false (.simple .int))].get ⟨i, hi2⟩).typeAnnot.ty)
           (([Parameter.mk "" "x" (.mk false (.simple .integer))].get ⟨i, hi⟩).typeAnnot.ty) =
             true) ∧
       (match some (TypeAnnot.mk false (.simple .int)),
          some (TypeAnnot.mk false (.simple .integer)) with
        | some a, some a2 => IsSubType a.ty a2.ty = true
        | none, none => True
        | _, _ => False) ∧
       false = false)) := by
  constructor
  · simp only [tEqual, paramsEqual, taEqual, retEqual]
    simp [tEqual]
  · exact function_subtyping_rule .impure .impure [] [] _ _ _ _ false false none none
      (by simp only [tEqual, paramsEqual, taEqual, retEqual]; simp [tEqual])

/--
C3: for every type t, `IsSubType(NeverType, t)` is true (`Never` is the
bottom type), while `IsSameTypeKind(NeverType, t)` is false for any
concrete t; `IsSameTypeKind` agrees with `IsSubType` on every subtype
other than `NeverType`.
-/
theorem never_is_bottom_and_same_kind_excludes_never (t sub : SType)
    (h : isNeverType sub = false) :
    IsSubType (.simple .never) t = true ∧
    IsSameTypeKind (.simple .never) t = false ∧
    IsSameTypeKind sub t = IsSubType sub t := by
  refine ⟨?_, ?_, ?_⟩
  · by_cases ht : tEqual (.simple .never) t = true
    · simp [IsSubType, ht]
    · rw [IsSubType, if_neg ht]
      cases t <;>
        first
        | (simp [checkSubTypeWithoutEquality, isNeverType]; done)
        | (rename_i k
           cases k <;>
             simp [checkSubTypeWithoutEquality, isNeverType, isResourceType,
               isAnyType, isAttachmentType])
  · simp [IsSameTypeKind, isNeverType]
  · simp [IsSameTypeKind, h]

/-- Witness for the claim-C3 theorem at concrete inputs. -/
theorem never_is_bottom_witness :
    isNeverType (.simple .int) = false ∧
    IsSubType (.simple .never) (.simple .bool) = true ∧
    IsSameTypeKind (.simple .never) (.simple .bool) = false ∧
    IsSameTypeKind (.simple .int) (.simple .bool) = IsSubType (.simple .int) (.simple .bool) := by
  refine ⟨by simp [isNeverType], ?_⟩
  exact never_is_bottom_and_same_kind_excludes_never (.simple .bool) (.simple .int)
    (by simp [isNeverType])

/--
C4: for every constructed (non-nil) type t, `IsSubType(t, t)` is true
and `IsProperSubType(t, t)` is false; more generally, whenever
`sub.Equal(super)` holds, `IsSubType` returns true and
`IsProperSubType` returns false, decided by the equality fast path.
-/
theorem subtyping_is_reflexive (t sub sup : SType) (h : tEqual sub sup = true) :
    IsSubType t t = true ∧ IsProperSubType t t = false ∧
    IsSubType sub sup = true ∧ IsProperSubType sub sup = false := by
  refine ⟨?_, ?_, ?_, ?_⟩ <;>
    simp [IsSubType, IsProperSubType, tEqual_refl t, h]

/-- Witness for the claim-C4 theorem at concrete inputs. -/
theorem subtyping_is_reflexive_witness :
    tEqual (.optional (.simple .int)) (.optional (.simple .int)) = true ∧
    IsSubType (.dictionary (.simple .bool) (.simple .int))
      (.dictionary (.simple .bool) (.simple .int)) = true ∧
    IsProperSubType (.dictionary (.simple .bool) (.simple .int))
      (.dictionary (.simple .bool) (.simple .int)) = false ∧
    IsSubType (.optional (.simple .int)) (.optional (.simple .int)) = true ∧
    IsProperSubType (.optional (.simple .int)) (.optional (.simple .int)) = false := by
  have h : tEqual (.optional (.simple .int)) (.optional (.simple .int)) = true :=
    tEqual_refl _
  have := subtyping_is_reflexive (.dictionary (.simple .bool) (.simple .int))
    (.optional (.simple .int)) (.optional (.simple .int)) h
  exact ⟨h, this.1, this.2.1, this.2.2.1, this.2.2.2⟩

/--
C5 (counterexample): the claim states that both `IsSubType` and
`IsProperSubType` return the defensive value false for a nil subType
and do not panic; but `IsProperSubType` has no nil guard — it
immediately dereferences the nil subtype (modelled as `none`), so it
does not return false there.
-/
theorem nil_subtype_proper_counterexample :
    IsProperSubTypeNilable none (.simple .int) = none ∧
    IsProperSubTypeNilable none (.simple .int) ≠ some false := by
  simp [IsProperSubTypeNilable]

/--
C5 (amended): a nil left-hand type is never a subtype of anything:
`IsSubType` returns the defensive value false for a nil subType; but
`IsProperSubType` has no such guard and dereferences the nil subtype
(it does not return) — it must only be called with a non-nil subtype.
-/
theorem nil_subtype_policy (superType : SType) :
    IsSubTypeNilable none superType = false ∧
    IsProperSubTypeNilable none superType = none := by
  simp [IsSubTypeNilable, IsProperSubTypeNilable]

/--
C6 (counterexample): the claim states that a default implementation
coming from an inherited conformance may not be overridden by a bare
(conditions-only or signature-only) declaration; but for a
conditions-only declaration (`HasConditions` true, no implementation)
over an inherited default implementation with an identical signature,
`checkDuplicateInterfaceMember` reports no conflict.
-/
theorem conditions_only_override_counterexample :
    checkDuplicateInterfaceMember
      { hasImplementation := false, hasConditions := true, signature := 0 }
      { hasImplementation := true, hasConditions := false, signature := 0 }
      true = false := by
  simp [checkDuplicateInterfaceMember, memberSatisfied]

/--
C6 (amended): in `checkDuplicateInterfaceMember`, a pair of same-named
members from different conformance sources is reported as an
`InterfaceMemberConflictError` iff their signatures differ, or both
carry a default implementation, or the conflicting member is inherited
and carries a default implementation while the current member has no
conditions (a signature-only declaration; a conditions-only
declaration may override the inherited default).  In particular, at
the same sibling level (not inherited) a bare member and a default
implementation never conflict when the signatures agree.
-/
theorem duplicate_member_conflict_rule (m c : Member) (inherited : Bool) :
    checkDuplicateInterfaceMember m c inherited = true ↔
      (memberSatisfied m c = false ∨
       (m.hasImplementation = true ∧ c.hasImplementation = true) ∨
       (inherited = true ∧ c.hasImplementation = true ∧
         m.hasConditions = false ∧ m.hasImplementation = false)) := by
  simp only [checkDuplicateInterfaceMember]
  cases hs : memberSatisfied m c <;>
    cases hm : m.hasImplementation <;>
      cases hc : c.hasImplementation <;>
        cases hcond : m.hasConditions <;>
          cases inherited <;>
            simp

/--
C7: when `Unify` reaches a `GenericType` whose type parameter is
already bound, it reports a `TypeParameterTypeMismatchError` iff the
newly observed type is not exactly `Equal` to the bound type, leaves
the binding unchanged, and still returns true: the boolean result
reports only that a generic type appeared, not success.
-/
theorem unify_bound_generic_behavior (p : TypeParameter) (other t0 : SType)
    (st : UnifyState) (h : lookupBinding st.bindings p.ref = some t0) :
    sUnify (.generic p) other st =
      ({ st with
         errors := st.errors ++
           (if tEqual other t0 = true then []
            else [.typeParameterTypeMismatch p.ref t0 other]) },
       true) := by
  simp only [sUnify, h]
  by_cases he : tEqual other t0 = true <;> simp [he]

/-- Witness for the claim-C7 theorem at concrete inputs: a mismatching
repetition reports the error, keeps the binding, and returns true. -/
theorem unify_bound_generic_witness :
    lookupBinding [(0, SType.simple .int)] 0 = some (.simple .int) ∧
    sUnify (.generic (.mk 0 "T" none false)) (.simple .bool)
      { bindings := [(0, .simple .int)], errors := [] } =
      ({ bindings := [(0, .simple .int)],
         errors := [.typeParameterTypeMismatch 0 (.simple .int) (.simple .bool)] },
       true) := by
  refine ⟨by simp [lookupBinding], ?_⟩
  rw [unify_bound_generic_behavior (.mk 0 "T" none false) (.simple .bool) (.simple .int) _
    (by simp [lookupBinding, TypeParameter.ref])]
  simp [tEqual, TypeParameter.ref]

/--
C9: for a `TypeAnnotation` whose type is not invalid and whose inner
annotation state is valid, `TypeAnnotationState()` is the
missing-resource state iff the type is a resource type and the flag is
unset, the invalid-resource state iff the type is not a resource type
and the flag is set, and valid iff the flag agrees with
`IsResourceType()` — the disagreement is reported, never silently
corrected.
-/
theorem annotation_state_flags_disagreement (flag : Bool) (ty : SType)
    (hinv : isInvalidType ty = false) (hst : typeAnnotState ty = .valid) :
    (annotState (.mk flag ty) = .missingResourceAnnot ↔
      (isResourceType ty = true ∧ flag = false)) ∧
    (annotState (.mk flag ty) = .invalidResourceAnnot ↔
      (isResourceType ty = false ∧ flag = true)) ∧
    (annotState (.mk flag ty) = .valid ↔ flag = isResourceType ty) := by
  simp only [annotState, hinv, Bool.false_eq_true, if_false, hst]
  cases hr : isResourceType ty <;> cases flag <;> simp

/-- Witness for the claim-C9 theorem at concrete inputs: a resource
composite type with an unset flag is in the missing-resource state. -/
theorem annotation_state_witness :
    isInvalidType (.composite .resourceK "R" none []) = false ∧
    typeAnnotState (.composite .resourceK "R" none []) = .valid ∧
    (annotState (.mk false (.composite .resourceK "R" none [])) = .missingResourceAnnot ↔
      (isResourceType (.composite .resourceK "R" none []) = true ∧ false = false)) := by
  refine ⟨by simp [isInvalidType], by simp [typeAnnotState], ?_⟩
  exact (annotation_state_flags_disagreement false (.composite .resourceK "R" none [])
    (by simp [isInvalidType]) (by simp [typeAnnotState])).1

/--
C10: `NewTypeAnnotation(t)` sets the `IsResource` flag to exactly
`t.IsResourceType()`; consequently, for any type that is not invalid
and whose inner annotation state is valid, the constructed
annotation's state is valid and never a resource-annotation mismatch
state.
-/
theorem new_annotation_is_canonical (ty : SType) :
    (NewTypeAnnot ty).isResource = isResourceType ty ∧
    (isInvalidType ty = false → typeAnnotState ty = .valid →
      annotState (NewTypeAnnot ty) = .valid) := by
  constructor
  · simp [NewTypeAnnot, TypeAnnot.isResource]
  · intro h1 h2
    simp only [NewTypeAnnot, annotState, h1, Bool.false_eq_true, if_false, h2]
    cases isResourceType ty <;> simp

/-- Witness for the claim-C10 theorem at a concrete resource type. -/
theorem new_annotation_is_canonical_witness :
    (NewTypeAnnot (.composite .resourceK "R" none [])).isResource =
      isResourceType (.composite .resourceK "R" none []) ∧
    annotState (NewTypeAnnot (.composite .resourceK "R" none [])) = .valid := by
  have h := new_annotation_is_canonical (.composite .resourceK "R" none [])
  exact ⟨h.1, h.2 (by simp [isInvalidType]) (by simp [typeAnnotState])⟩

/-! ## Round-trip development (claim C8) -/

theorem lookupBinding_append_some (b d : List (Nat × SType)) (r : Nat) (v : SType)
    (h : lookupBinding b r = some v) : lookupBinding (b ++ d) r = some v := by
  induction b with
  | nil => simp [lookupBinding] at h
  | cons hd tl ih =>
      obtain ⟨hr, hv⟩ := hd
      rw [lookupBinding] at h
      rw [List.cons_append, lookupBinding]
      by_cases hh : (hr == r) = true
      · rwa [if_pos hh] at h ⊢
      · rw [if_neg hh] at h ⊢
        exact ih h

theorem lookupBinding_append_none (b d : List (Nat × SType)) (r : Nat)
    (h : lookupBinding b r = none) : lookupBinding (b ++ d) r = lookupBinding d r := by
  induction b with
  | nil => simp
  | cons hd tl ih =>
      obtain ⟨hr, hv⟩ := hd
      rw [lookupBinding] at h
      rw [List.cons_append, lookupBinding]
      by_cases hh : (hr == r) = true
      · rw [if_pos hh] at h; exact absurd h (by simp)
      · rw [if_neg hh] at h ⊢
        exact ih h

theorem appendRightNil {α : Type _} (l x : List α) (h : l ++ x = l) : x = [] := by
  have := congrArg List.length h
  simp at this
  exact this

theorem shapeParams_length : ∀ ps pt : List Parameter,
    shapeParams ps pt = true → ps.length = pt.length
  | [], [], _ => rfl
  | [], .mk _ _ _ :: _, h => by simp [shapeParams] at h
  | .mk _ _ (.mk _ _) :: _, [], h => by simp [shapeParams] at h
  | .mk _ _ (.mk _ ts) :: rest, .mk _ _ (.mk flag2 tt) :: rest2, h => by
      rw [shapeParams] at h
      simp only [Bool.and_eq_true] at h
      simp [shapeParams_length rest rest2 h.2]

/--
Nominally `Equal` types have the same resource-kind, provided the left
type is a concrete value type (an attachment composite's `Equal`
ignores the base type that determines its resource-kind, and value
types cannot be attachments).
-/
theorem tEqual_isResource (a b : SType) (h : tEqual a b = true)
    (hc : concreteValueType a = true) : isResourceType a = isResourceType b := by
  cases a <;> cases b <;>
    (try (simp [tEqual] at h; done)) <;>
    (try (simp [isResourceType]; done))
  next x y =>
    simp only [tEqual] at h
    simp only [concreteValueType] at hc
    simp only [isResourceType]
    exact tEqual_isResource x y h hc
  next x y =>
    simp only [tEqual] at h
    simp only [concreteValueType] at hc
    simp only [isResourceType]
    exact tEqual_isResource x y h hc
  next x n y m =>
    simp only [tEqual, Bool.and_eq_true] at h
    simp only [concreteValueType] at hc
    simp only [isResourceType]
    exact tEqual_isResource x y h.1 hc
  next k v k2 v2 =>
    simp only [tEqual, Bool.and_eq_true] at h
    simp only [concreteValueType, Bool.and_eq_true] at hc
    simp only [isResourceType]
    rw [tEqual_isResource k k2 (by rw [tEqual_symm]; exact h.1) hc.1,
      tEqual_isResource v v2 (by rw [tEqual_symm]; exact h.2) hc.2]
  next k id bB impl k2 id2 b2 impl2 =>
    simp only [tEqual, Bool.and_eq_true, beq_iff_eq] at h
    obtain ⟨hk, -⟩ := h
    subst hk
    cases bB with
    | none =>
        simp only [concreteValueType, Bool.and_true] at hc
        cases k2 <;>
          first
          | (simp [isResourceType]; done)
          | exact absurd hc (by simp)
    | some base =>
        simp only [concreteValueType, Bool.and_eq_true] at hc
        obtain ⟨hna, -⟩ := hc
        cases k2 <;>
          first
          | (simp [isResourceType]; done)
          | exact absurd hna (by simp)
termination_by sizeOf a

mutual

/-- `Unify` only appends to the binding map and the error list. -/
theorem sUnify_state_append : ∀ (s other : SType) (st : UnifyState),
    ∃ d e, ((sUnify s other st).1).bindings = st.bindings ++ d ∧
      ((sUnify s other st).1).errors = st.errors ++ e
  | .simple _, other, st => ⟨[], [], by simp [sUnify], by simp [sUnify]⟩
  | .entitlementE _, other, st => ⟨[], [], by simp [sUnify], by simp [sUnify]⟩
  | .composite _ _ _ _, other, st => ⟨[], [], by simp [sUnify], by simp [sUnify]⟩
  | .capability none, other, st => ⟨[], [], by simp [sUnify], by simp [sUnify]⟩
  | .optional inner, other, st => by
      cases other <;>
        first
        | (simp only [sUnify]; exact sUnify_state_append inner _ st)
        | (refine ⟨[], [], ?_, ?_⟩ <;> simp [sUnify])
  | .variableSized inner, other, st => by
      cases other <;>
        first
        | (simp only [sUnify]; exact sUnify_state_append inner _ st)
        | (refine ⟨[], [], ?_, ?_⟩ <;> simp [sUnify])
  | .reference a inner, other, st => by
      cases other <;>
        first
        | (simp only [sUnify]; exact sUnify_state_append inner _ st)
        | (refine ⟨[], [], ?_, ?_⟩ <;> simp [sUnify])
  | .capability (some b), other, st => by
      cases other with
      | capability b2 =>
          cases b2 with
          | none => exact ⟨[], [], by simp [sUnify], by simp [sUnify]⟩
          | some bb => simp only [sUnify]; exact sUnify_state_append b bb st
      | _ => exact ⟨[], [], by simp [sUnify], by simp [sUnify]⟩
  | .constantSized inner n, other, st => by
      cases other with
      | constantSized o m =>
          simp only [sUnify]
          split
          · exact ⟨[], [], by simp, by simp⟩
          · exact sUnify_state_append inner o st
      | _ => exact ⟨[], [], by simp [sUnify], by simp [sUnify]⟩
  | .dictionary k v, other, st => by
      cases other with
      | dictionary k2 v2 =>
          simp only [sUnify]
          obtain ⟨d1, e1, hb1, he1⟩ := sUnify_state_append k k2 st
          obtain ⟨d2, e2, hb2, he2⟩ := sUnify_state_append v v2 (sUnify k k2 st).1
          exact ⟨d1 ++ d2, e1 ++ e2,
            by rw [hb2, hb1, List.append_assoc],
            by rw [he2, he1, List.append_assoc]⟩
      | _ => exact ⟨[], [], by simp [sUnify], by simp [sUnify]⟩
  | .function p tps params ret ctor req, other, st => by
      cases other with
      | function p2 tps2 params2 ret2 ctor2 req2 =>
          simp only [sUnify]
          split
          · exact ⟨[], [], by simp, by simp⟩
          · split
            · exact ⟨[], [], by simp, by simp⟩
            · rcases ret with - | ⟨rf, rt⟩ <;> rcases ret2 with - | ⟨rf2, rt2⟩ <;>
                simp only <;>
                first
                | exact unifyParams_state_append params params2 st
                | (obtain ⟨d1, e1, hb1, he1⟩ :=
                     unifyParams_state_append params params2 st
                   obtain ⟨d2, e2, hb2, he2⟩ :=
                     sUnify_state_append rt rt2 (unifyParams params params2 st).1
                   exact ⟨d1 ++ d2, e1 ++ e2,
                     by rw [hb2, hb1, List.append_assoc],
                     by rw [he2, he1, List.append_assoc]⟩)
      | _ => exact ⟨[], [], by simp [sUnify], by simp [sUnify]⟩
  | .generic p, other, st => by
      simp only [sUnify]
      split
      next v hv =>
        split
        · exact ⟨[], [.typeParameterTypeMismatch p.ref v other], by simp, by simp⟩
        · exact ⟨[], [], by simp, by simp⟩
      next hv =>
        split
        next e he => exact ⟨[(p.ref, other)], [e], by simp, by simp⟩
        next he => exact ⟨[(p.ref, other)], [], by simp, by simp⟩

theorem unifyParams_state_append : ∀ (ps pt : List Parameter) (st : UnifyState),
    ∃ d e, ((unifyParams ps pt st).1).bindings = st.bindings ++ d ∧
      ((unifyParams ps pt st).1).errors = st.errors ++ e
  | [], pt, st => ⟨[], [], by simp [unifyParams], by simp [unifyParams]⟩
  | _ :: _, [], st => ⟨[], [], by simp [unifyParams], by simp [unifyParams]⟩
  | .mk _ _ (.mk _ t) :: rest, .mk _ _ (.mk _ t2) :: rest2, st => by
      simp only [unifyParams]
      obtain ⟨d1, e1, hb1, he1⟩ := sUnify_state_append t t2 st
      obtain ⟨d2, e2, hb2, he2⟩ := unifyParams_state_append rest rest2 (sUnify t t2 st).1
      exact ⟨d1 ++ d2, e1 ++ e2,
        by rw [hb2, hb1, List.append_assoc],
        by rw [he2, he1, List.append_assoc]⟩

end

mutual

/--
Round-trip of unification and resolution: if s has the identical
structural shape as the concrete type t with generics at leaves
(`shapeB`), and unifying s against t from any starting state reports
no errors, then resolving s under any extension of the resulting
bindings yields a type `Equal` to t.
-/
theorem roundTripAux : ∀ (s t : SType) (st : UnifyState) (B : List (Nat × SType)),
    shapeB s t = true →
    concreteValueType t = true →
    ((sUnify s t st).1).errors = st.errors →
    (∃ d0, B = ((sUnify s t st).1).bindings ++ d0) →
    ∃ r, sResolve s B = some r ∧ tEqual r t = true
  | .generic p, t, st, B => by
      intro hs hc he hB
      obtain ⟨d0, hB⟩ := hB
      cases hl : lookupBinding st.bindings p.ref with
      | some v =>
          simp only [sUnify, hl] at he hB
          by_cases ht : tEqual t v = true
          · simp only [ht, Bool.not_true, Bool.false_eq_true, if_false] at hB
            have hlook : lookupBinding B p.ref = some v := by
              rw [hB]; exact lookupBinding_append_some _ _ _ _ hl
            exact ⟨v, by simp [sResolve, hlook], by rw [tEqual_symm]; exact ht⟩
          · rw [Bool.not_eq_true] at ht
            simp only [ht, Bool.not_false, if_true] at he
            have := appendRightNil _ _ he
            simp at this
      | none =>
          cases hcb : checkTypeBound p t with
          | some e =>
              simp only [sUnify, hl, hcb] at hB
              have hlook : lookupBinding B p.ref = some t := by
                rw [hB, List.append_assoc, lookupBinding_append_none _ _ _ hl,
                  List.singleton_append, lookupBinding]
                simp
              exact ⟨t, by simp [sResolve, hlook], tEqual_refl t⟩
          | none =>
              simp only [sUnify, hl, hcb] at hB
              have hlook : lookupBinding B p.ref = some t := by
                rw [hB, List.append_assoc, lookupBinding_append_none _ _ _ hl,
                  List.singleton_append, lookupBinding]
                simp
              exact ⟨t, by simp [sResolve, hlook], tEqual_refl t⟩
  | .simple k, t, st, B => by
      intro hs hc he hB
      simp only [shapeB] at hs
      exact ⟨.simple k, by simp [sResolve], hs⟩
  | .entitlementE i, t, st, B => by
      intro hs hc he hB
      simp only [shapeB] at hs
      exact ⟨.entitlementE i, by simp [sResolve], hs⟩
  | .composite k id bb impl, t, st, B => by
      intro hs hc he hB
      simp only [shapeB] at hs
      exact ⟨.composite k id bb impl, by simp [sResolve], hs⟩
  | .optional sI, t, st, B => by
      intro hs hc he hB
      cases t with
      | optional tI =>
          simp only [shapeB] at hs
          simp only [concreteValueType] at hc
          simp only [sUnify] at he hB
          obtain ⟨r, hres, heq⟩ := roundTripAux sI tI st B hs hc he hB
          exact ⟨.optional r, by simp [sResolve, hres], by simp only [tEqual]; exact heq⟩
      | _ => simp [shapeB] at hs
  | .variableSized sI, t, st, B => by
      intro hs hc he hB
      cases t with
      | variableSized tI =>
          simp only [shapeB] at hs
          simp only [concreteValueType] at hc
          simp only [sUnify] at he hB
          obtain ⟨r, hres, heq⟩ := roundTripAux sI tI st B hs hc he hB
          exact ⟨.variableSized r, by simp [sResolve, hres], by simp only [tEqual]; exact heq⟩
      | _ => simp [shapeB] at hs
  | .constantSized sI n, t, st, B => by
      intro hs hc he hB
      cases t with
      | constantSized tI m =>
          simp only [shapeB, Bool.and_eq_true, beq_iff_eq] at hs
          obtain ⟨rfl, hs2⟩ := hs
          simp only [concreteValueType] at hc
          simp only [sUnify, bne_self_eq_false, Bool.false_eq_true, if_false] at he hB
          obtain ⟨r, hres, heq⟩ := roundTripAux sI tI st B hs2 hc he hB
          refine ⟨.constantSized r n, by simp [sResolve, hres], ?_⟩
          simp only [tEqual, Bool.and_eq_true]
          exact ⟨heq, by simp⟩
      | _ => simp [shapeB] at hs
  | .reference a sI, t, st, B => by
      intro hs hc he hB
      cases t with
      | reference a2 tI =>
          simp only [shapeB, Bool.and_eq_true, beq_iff_eq] at hs
          obtain ⟨rfl, hs2⟩ := hs
          simp only [concreteValueType] at hc
          simp only [sUnify] at he hB
          obtain ⟨r, hres, heq⟩ := roundTripAux sI tI st B hs2 hc he hB
          refine ⟨.reference a r, by simp [sResolve, hres], ?_⟩
          simp only [tEqual, Access.accessEqual, Bool.and_eq_true]
          exact ⟨by simp, heq⟩
      | _ => simp [shapeB] at hs
  | .dictionary ks vs, t, st, B => by
      intro hs hc he hB
      cases t with
      | dictionary kt vt =>
          simp only [shapeB, Bool.and_eq_true] at hs
          simp only [concreteValueType, Bool.and_eq_true] at hc
          obtain ⟨d0, hB⟩ := hB
          simp only [sUnify] at he hB
          obtain ⟨d1, e1, hb1, he1⟩ := sUnify_state_append ks kt st
          obtain ⟨d2, e2, hb2, he2⟩ := sUnify_state_append vs vt (sUnify ks kt st).1
          rw [he2, he1, List.append_assoc] at he
          have hee := appendRightNil _ _ he
          rw [List.append_eq_nil] at hee
          have heK : ((sUnify ks kt st).1).errors = st.errors := by
            rw [he1, hee.1, List.append_nil]
          have heV : ((sUnify vs vt (sUnify ks kt st).1).1).errors =
              ((sUnify ks kt st).1).errors := by
            rw [he2, hee.2, List.append_nil]
          have hBK : ∃ d, B = ((sUnify ks kt st).1).bindings ++ d :=
            ⟨d2 ++ d0, by rw [hB, hb2, List.append_assoc]⟩
          obtain ⟨rk, hresK, heqK⟩ := roundTripAux ks kt st B hs.1 hc.1 heK hBK
          obtain ⟨rv, hresV, heqV⟩ :=
            roundTripAux vs vt (sUnify ks kt st).1 B hs.2 hc.2 heV ⟨d0, hB⟩
          refine ⟨.dictionary rk rv, by simp [sResolve, hresK, hresV], ?_⟩
          simp only [tEqual, Bool.and_eq_true]
          exact ⟨by rw [tEqual_symm]; exact heqK, by rw [tEqual_symm]; exact heqV⟩
      | _ => simp [shapeB] at hs
  | .capability none, t, st, B => by
      intro hs hc he hB
      cases t with
      | capability bt =>
          cases bt with
          | none => exact ⟨.capability none, by simp [sResolve], by simp [tEqual]⟩
          | some x => simp [shapeB] at hs
      | _ => simp [shapeB] at hs
  | .capability (some bs), t, st, B => by
      intro hs hc he hB
      cases t with
      | capability bt =>
          cases bt with
          | none => simp [shapeB] at hs
          | some btI =>
              simp only [shapeB] at hs
              simp only [concreteValueType] at hc
              simp only [sUnify] at he hB
              obtain ⟨r, hres, heq⟩ := roundTripAux bs btI st B hs hc he hB
              refine ⟨.capability (some r), by simp [sResolve, hres], ?_⟩
              simp only [tEqual]
              rw [tEqual_symm]
              exact heq
      | _ => simp [shapeB] at hs
  | .function p tps params ret ctor req, t, st, B => by
      intro hs hc he hB
      cases t with
      | function p2 tps2 params2 ret2 ctor2 req2 =>
          rcases ret with _ | ⟨rf, rs⟩ <;> rcases ret2 with _ | ⟨rf2, rt⟩
          · simp [shapeB] at hs
          · simp [shapeB] at hs
          · simp [shapeB] at hs
          · simp only [shapeB, Bool.and_eq_true, beq_iff_eq] at hs
            obtain ⟨⟨⟨⟨⟨⟨hp, htps⟩, htps2⟩, hctor⟩, hctor2⟩, hparams⟩, hret⟩ := hs
            subst hp
            subst hctor
            subst hctor2
            obtain rfl : tps = [] := by simpa using htps
            obtain rfl : tps2 = [] := by simpa using htps2
            simp only [concreteValueType, Bool.and_eq_true] at hc
            obtain ⟨⟨-, hcparams⟩, hcret⟩ := hc
            obtain ⟨d0, hB⟩ := hB
            have hlen := shapeParams_length params params2 hparams
            simp only [sUnify, List.isEmpty_nil, Bool.not_true, Bool.or_self,
              Bool.false_eq_true, if_false, hlen, bne_self_eq_false] at he hB
            obtain ⟨d1, e1, hb1, he1⟩ := unifyParams_state_append params params2 st
            obtain ⟨d2, e2, hb2, he2⟩ :=
              sUnify_state_append rs rt (unifyParams params params2 st).1
            rw [he2, he1, List.append_assoc] at he
            have hee := appendRightNil _ _ he
            rw [List.append_eq_nil] at hee
            have heP : ((unifyParams params params2 st).1).errors = st.errors := by
              rw [he1, hee.1, List.append_nil]
            have heR : ((sUnify rs rt (unifyParams params params2 st).1).1).errors =
                ((unifyParams params params2 st).1).errors := by
              rw [he2, hee.2, List.append_nil]
            have hBP : ∃ d, B = ((unifyParams params params2 st).1).bindings ++ d :=
              ⟨d2 ++ d0, by rw [hB, hb2, List.append_assoc]⟩
            obtain ⟨rsL, hresP, hpeq⟩ :=
              roundTripParamsAux params params2 st B hparams hcparams heP hBP
            obtain ⟨rr, hresR, hreq⟩ :=
              roundTripAux rs rt (unifyParams params params2 st).1 B hret hcret heR ⟨d0, hB⟩
            refine ⟨.function p [] rsL (some (NewTypeAnnot rr)) false req,
              by simp [sResolve, resolveReturn, hresP, hresR], ?_⟩
            simp only [NewTypeAnnot, tEqual, tpsEqual, retEqual, Bool.and_eq_true]
            exact ⟨⟨⟨⟨by simp, trivial⟩, hpeq⟩, by simp⟩, hreq⟩
      | _ => simp [shapeB] at hs

/-- Parameter-list round trip: the resolved parameters are `Equal`
(in the annotation sense) to the target parameters. -/
theorem roundTripParamsAux : ∀ (ps pt : List Parameter) (st : UnifyState)
    (B : List (Nat × SType)),
    shapeParams ps pt = true →
    concreteParams pt = true →
    ((unifyParams ps pt st).1).errors = st.errors →
    (∃ d0, B = ((unifyParams ps pt st).1).bindings ++ d0) →
    ∃ rs, resolveParams ps B = some rs ∧ paramsEqual rs pt = true
  | [], [], st, B => by
      intro hs hc he hB
      exact ⟨[], by simp [resolveParams], by simp [paramsEqual]⟩
  | [], .mk _ _ _ :: _, st, B => by
      intro hs hc he hB
      simp [shapeParams] at hs
  | .mk _ _ (.mk _ _) :: _, [], st, B => by
      intro hs hc he hB
      simp [shapeParams] at hs
  | .mk l ident (.mk f ts) :: rest, .mk l2 ident2 (.mk flag2 tt) :: rest2, st, B => by
      intro hs hc he hB
      simp only [shapeParams, Bool.and_eq_true, beq_iff_eq] at hs
      obtain ⟨⟨hsh, hflag⟩, hrest⟩ := hs
      simp only [concreteParams, Bool.and_eq_true] at hc
      obtain ⟨d0, hB⟩ := hB
      simp only [unifyParams] at he hB
      obtain ⟨d1, e1, hb1, he1⟩ := sUnify_state_append ts tt st
      obtain ⟨d2, e2, hb2, he2⟩ := unifyParams_state_append rest rest2 (sUnify ts tt st).1
      rw [he2, he1, List.append_assoc] at he
      have hee := appendRightNil _ _ he
      rw [List.append_eq_nil] at hee
      have heT : ((sUnify ts tt st).1).errors = st.errors := by
        rw [he1, hee.1, List.append_nil]
      have heR : ((unifyParams rest rest2 (sUnify ts tt st).1).1).errors =
          ((sUnify ts tt st).1).errors := by
        rw [he2, hee.2, List.append_nil]
      have hBT : ∃ d, B = ((sUnify ts tt st).1).bindings ++ d :=
        ⟨d2 ++ d0, by rw [hB, hb2, List.append_assoc]⟩
      obtain ⟨r, hres, heqel⟩ := roundTripAux ts tt st B hsh hc.1 heT hBT
      obtain ⟨rs2, hresR, hpeq⟩ :=
        roundTripParamsAux rest rest2 (sUnify ts tt st).1 B hrest hc.2 heR ⟨d0, hB⟩
      refine ⟨.mk l ident (NewTypeAnnot r) :: rs2,
        by simp [resolveParams, hres, hresR], ?_⟩
      simp only [paramsEqual, NewTypeAnnot, taEqual, Bool.and_eq_true]
      refine ⟨⟨?_, heqel⟩, hpeq⟩
      have hir : isResourceType tt = isResourceType r :=
        tEqual_isResource tt r (by rw [tEqual_symm]; exact heqel) hc.1
      rw [hflag, hir]
      simp

end

/--
C8 (counterexample): the claim's round-trip fails on constructor
function types: unifying the constructor function type
`fun(): T` (s, with generic return T) against the concrete constructor
function type `fun(): Int` (t, identical structural shape) reports no
errors and binds T to Int, but `Resolve` does not reconstruct the
`IsConstructor` flag, so the resolved type is not `Equal` to t.
-/
theorem resolve_drops_constructor_counterexample :
    sUnify
      (.function .impure [] [] (some (.mk false (.generic (.mk 0 "T" none false)))) true none)
      (.function .impure [] [] (some (.mk false (.simple .int))) true none)
      { bindings := [], errors := [] } =
      ({ bindings := [(0, .simple .int)], errors := [] }, true) ∧
    sResolve
      (.function .impure [] [] (some (.mk false (.generic (.mk 0 "T" none false)))) true none)
      [(0, .simple .int)] =
      some (.function .impure [] [] (some (.mk false (.simple .int))) false none) ∧
    tEqual
      (.function .impure [] [] (some (.mk false (.simple .int))) false none)
      (.function .impure [] [] (some (.mk false (.simple .int))) true none) = false := by
  refine ⟨?_, ?_, ?_⟩
  · simp [sUnify, unifyParams, lookupBinding, checkTypeBound, TypeParameter.ref,
      TypeParameter.typeBound]
  · simp [sResolve, resolveParams, resolveReturn, lookupBinding, NewTypeAnnot,
      TypeParameter.ref, isResourceType]
  · simp [tEqual]

/--
C8 (amended): for every type s of the identical structural shape as a
concrete generic-free type t with `GenericType` occurrences at leaves —
where the shape excludes constructor functions, functions with type
parameters (`Unify` does not traverse them), and attachment types, and
the t-side parameter annotations carry the canonical resource flag —
if `s.Unify(t, typeParameters, ...)` reports no errors, then
`s.Resolve` under the resulting bindings returns a type `Equal` to t;
and `Resolve` returns nil (it does not error) when resolving a
`GenericType` whose required binding is absent.
-/
theorem unify_resolve_round_trip (s t : SType) (st : UnifyState)
    (hs : shapeB s t = true) (hc : concreteValueType t = true)
    (he : ((sUnify s t st).1).errors = st.errors) :
    (∃ r, sResolve s (((sUnify s t st).1).bindings) = some r ∧ tEqual r t = true) ∧
    (∀ q : TypeParameter, lookupBinding (((sUnify s t st).1).bindings) q.ref = none →
      sResolve (.generic q) (((sUnify s t st).1).bindings) = none) := by
  refine ⟨roundTripAux s t st (((sUnify s t st).1).bindings) hs hc he
    ⟨[], (List.append_nil _).symm⟩, ?_⟩
  intro q hq
  simp [sResolve, hq]

/-- Witness for the claim-C8 theorem: unifying `{T: U?}` against
`{Int: Bool?}` binds both parameters without errors, and resolution
returns a type `Equal` to `{Int: Bool?}`. -/
theorem unify_resolve_round_trip_witness :
    ∃ r,
      sResolve
        (.dictionary (.generic (.mk 0 "T" none false))
          (.optional (.generic (.mk 1 "U" none false))))
        (((sUnify
            (.dictionary (.generic (.mk 0 "T" none false))
              (.optional (.generic (.mk 1 "U" none false))))
            (.dictionary (.simple .int) (.optional (.simple .bool)))
            { bindings := [], errors := [] }).1).bindings) = some r ∧
      tEqual r (.dictionary (.simple .int) (.optional (.simple .bool))) = true := by
  refine (unify_resolve_round_trip _ _ _ ?_ ?_ ?_).1
  · simp [shapeB, concreteValueType]
  · simp [concreteValueType]
  · simp [sUnify, lookupBinding, checkTypeBound, TypeParameter.ref,
      TypeParameter.typeBound]

end CadenceSema
